import Mathlib

/-!
# Verification of the DemoMan core (demo files, sidecar annotations, highlight filters)

Shallow embedding of the computational core of the DemoMan application:
the sidecar annotation store, the demo-header parser, the demo entity and
its path-keyed cache, the directory scanner, and the highlight filter
engine.  Filesystem effects are made explicit: the relevant parts of the
filesystem state are passed in and returned, and fallible operations
return `Except`.
-/

namespace DemoMan

set_option maxRecDepth 100000

/-! ## Errors

The Node filesystem layer raises errors carrying a `code`; the source
inspects `e.code === "ENOENT"` and `e.code === "EEXIST"`.  We model the
codes the source distinguishes, with `other` standing for every
remaining code. -/

inductive FsErr where
  | enoent
  | eexist
  | other
deriving DecidableEq, Repr

/-! ## Sidecar annotation store (`src/Demos.ts`)

`DemoEvent` records are `{tick, name, value}` objects. -/

structure DemoEvent where
  tick : Nat
  name : String
  value : String
deriving DecidableEq, Repr

/-- The content of a sidecar file, as seen through `JSON.parse`:
either a JSON object whose `events` / `tags` fields may each be absent
(the source reads `parsedJson.events || []` and `parsedJson.tags || []`),
or content `JSON.parse` rejects. -/
inductive SidecarJson where
  | jsonObj (events : Option (List DemoEvent)) (tags : Option (List String))
  | malformed
deriving DecidableEq, Repr

/-- Source function `writeEventsAndTagsFile(events, tags, jsonPath, overwrite)` from
`src/Demos.ts`.  The state is the sidecar file at `jsonPath`
(`none` = absent).  The source:
* if `events.length === 0`: `fs.rmSync(jsonPath, {force: true})` and return;
* otherwise open with flag `"w"` (overwrite) or `"wx"` (exclusive create);
  an `EEXIST` failure of `"wx"` logs and returns, leaving the file as is;
* on success write the serialized `{events, tags}` object. -/
def writeEventsAndTagsFile (events : List DemoEvent) (tags : List String)
    (file : Option SidecarJson) (overwrite : Bool) : Option SidecarJson :=
  if events.length = 0 then
    none
  else
    match file, overwrite with
    | some existing, false => some existing
    | _, _ => some (.jsonObj (some events) (some tags))

/-- Source function `Demo.readEventsAndTags(jsonPath)` from `src/Demos.ts`.  The input is
the outcome of `fs.readFileSync(jsonPath)` followed by `JSON.parse`:
an error with a code, or the parsed content.  The source returns
`[[], []]` on `ENOENT`, rethrows every other filesystem error, and
returns `[[], []]` when `JSON.parse` throws; present fields fall back to
`[]` via `||`. -/
def readEventsAndTags (raw : Except FsErr SidecarJson) :
    Except FsErr (List DemoEvent × List String) :=
  match raw with
  | .error .enoent => .ok ([], [])
  | .error e => .error e
  | .ok (.jsonObj ev tg) => .ok (ev.getD [], tg.getD [])
  | .ok .malformed => .ok ([], [])

/-! ## Demo header parser (`src/Demos.ts`, `HEADER_SIZE` and
`Demo.readFileHeader`) -/

/-- Source constant `HEADER_SIZE = 8 + 4 + 4 + 260 + 260 + 260 + 260 + 4 + 4 + 4 + 4`. -/
def HEADER_SIZE : Nat := 8 + 4 + 4 + 260 + 260 + 260 + 260 + 4 + 4 + 4 + 4

inductive DemoError where
  | invalidDemoFile
  | fsError (e : FsErr)
deriving DecidableEq, Repr

/-- Modelled from the spec: the Byte Cursor Reader (`src/StreamReader.ts`
is not among the provided sources; §4.1 of the spec describes it).  A
sequential bounds-checked reader over a byte buffer with a mutable
offset. -/
structure StreamReader where
  buf : List Nat
  offset : Nat
deriving Repr

/-- Modelled from the spec: `readFixedString(n)` reads `n` bytes,
interprets them as text up to the first NUL byte, advances by `n`,
and fails when fewer than `n` bytes remain. -/
def StreamReader.readString (sr : StreamReader) (n : Nat) :
    Option (String × StreamReader) :=
  if sr.offset + n ≤ sr.buf.length then
    let bytes := ((sr.buf.drop sr.offset).take n).takeWhile (· ≠ 0)
    some (String.mk (bytes.map Char.ofNat), ⟨sr.buf, sr.offset + n⟩)
  else
    none

/-- Signed (two-complement) reading of a 32-bit pattern. -/
def toInt32 (n : Nat) : Int :=
  if n < 2 ^ 31 then (n : Int) else (n : Int) - 2 ^ 32

/-- Modelled from the spec: `readInt32()` reads 4 bytes little-endian as
a signed integer, advances by 4, and fails when fewer than 4 bytes
remain. -/
def StreamReader.readInt (sr : StreamReader) : Option (Int × StreamReader) :=
  if sr.offset + 4 ≤ sr.buf.length then
    let bs := (sr.buf.drop sr.offset).take 4
    some (toInt32 (bs.getD 0 0 + 256 * bs.getD 1 0 + 256 ^ 2 * bs.getD 2 0
      + 256 ^ 3 * bs.getD 3 0), ⟨sr.buf, sr.offset + 4⟩)
  else
    none

/-- Modelled from the spec: `readFloat32()` reads 4 bytes little-endian
as an IEEE-754 single, advances by 4.  We keep the raw 32-bit pattern
rather than a floating-point value; no claim depends on float
arithmetic. -/
def StreamReader.readFloat (sr : StreamReader) : Option (Nat × StreamReader) :=
  if sr.offset + 4 ≤ sr.buf.length then
    let bs := (sr.buf.drop sr.offset).take 4
    some (bs.getD 0 0 + 256 * bs.getD 1 0 + 256 ^ 2 * bs.getD 2 0
      + 256 ^ 3 * bs.getD 3 0, ⟨sr.buf, sr.offset + 4⟩)
  else
    none

/-- The `DemoHeader` record of `src/DemoHeader.ts`, as constructed by
`Demo.readFileHeader`.  `playbackTime` holds the raw 32-bit float
pattern. -/
structure DemoHeader where
  demoVersion : Int
  netVersion : Int
  serverName : String
  clientName : String
  mapName : String
  gameDir : String
  playbackTime : Nat
  numTicks : Int
  numFrames : Int
  signonLength : Int
deriving DecidableEq, Repr

/-- Source function `Demo.readFileHeader(filename)` from `src/Demos.ts`, applied to the
byte content of the file.  `fs.readSync(fd, buf, 0, HEADER_SIZE, 0)`
reads `min HEADER_SIZE file.length` bytes from offset 0; a short read
throws `InvalidDemoFileError`, as does a file stamp other than
`"HL2DEMO"`.  The fields are then decoded in source order through the
cursor reader. -/
def readFileHeader (file : List Nat) : Except DemoError DemoHeader :=
  let bytesRead := min HEADER_SIZE file.length
  if bytesRead ≠ HEADER_SIZE then
    .error .invalidDemoFile
  else
    let sr : StreamReader := ⟨file.take HEADER_SIZE, 0⟩
    match sr.readString 8 with
    | none => .error .invalidDemoFile
    | some (filestamp, sr) =>
      if filestamp ≠ "HL2DEMO" then
        .error .invalidDemoFile
      else
        match sr.readInt with
        | none => .error .invalidDemoFile
        | some (demoVersion, sr) =>
        match sr.readInt with
        | none => .error .invalidDemoFile
        | some (netVersion, sr) =>
        match sr.readString 260 with
        | none => .error .invalidDemoFile
        | some (serverName, sr) =>
        match sr.readString 260 with
        | none => .error .invalidDemoFile
        | some (clientName, sr) =>
        match sr.readString 260 with
        | none => .error .invalidDemoFile
        | some (mapName, sr) =>
        match sr.readString 260 with
        | none => .error .invalidDemoFile
        | some (gameDir, sr) =>
        match sr.readFloat with
        | none => .error .invalidDemoFile
        | some (playbackTime, sr) =>
        match sr.readInt with
        | none => .error .invalidDemoFile
        | some (numTicks, sr) =>
        match sr.readInt with
        | none => .error .invalidDemoFile
        | some (numFrames, sr) =>
        match sr.readInt with
        | none => .error .invalidDemoFile
        | some (signonLength, _) =>
          .ok { demoVersion, netVersion, serverName, clientName, mapName,
                gameDir, playbackTime, numTicks, numFrames, signonLength }

/-! ## Demo entity & cache (`src/Demos.ts`, class `Demo`) -/

/-- The mutable fields of a `Demo` instance. -/
structure Demo where
  filename : String
  birthtime : Nat
  filesize : Nat
  header : DemoHeader
  events : List DemoEvent
  tags : List String
deriving DecidableEq, Repr

/-- JS `String.prototype.endsWith`, computed on the character list so
that proofs can evaluate it. -/
def strEndsWith (s suffix : String) : Bool :=
  List.isSuffixOf suffix.toList s.toList

/-- JS `s.toLowerCase()` over the character list. -/
def strToLower (s : String) : String :=
  String.mk (s.toList.map Char.toLower)

/-- Source function `Demo.getJSONPath(filename)`:
`filename.replace(/\.dem$/gi, ".json")` — a case-insensitive
anchored-at-end replacement of the `.dem` extension. -/
def getJSONPath (filename : String) : String :=
  if strEndsWith (strToLower filename) ".dem" then
    String.mk (filename.toList.take (filename.toList.length - 4)) ++ ".json"
  else
    filename

/-- The filesystem environment `Demo.getDemo` runs against:
`fs.realpathSync` (canonicalization, symlinks followed), `fs.statSync`
(birthtime and size, or an error), the byte content of each file, and
the outcome of reading-and-JSON-parsing each sidecar path. -/
structure FsEnv where
  canon : String → String
  stat : String → Except FsErr (Nat × Nat)
  fileBytes : String → List Nat
  sidecar : String → Except FsErr SidecarJson

/-- The process-wide `Demo.demoCache`, keyed by canonical path. -/
def DemoCache := List (String × Demo)

def DemoCache.lookup (cache : DemoCache) (key : String) : Option Demo :=
  match cache with
  | [] => none
  | (k, d) :: rest => if k = key then some d else DemoCache.lookup rest key

/-- Source function `Demo.getDemo(filename)` from `src/Demos.ts`.  Steps, in source
order: canonicalize via `fs.realpathSync`; look the canonical path up in
the cache and return a hit as is; otherwise `fs.statSync`, then
`readEventsAndTags` on the sidecar path, then `readFileHeader`, then
construct the `Demo`, insert it under the canonical path and return it.
The result carries the demo or the propagated error, the resulting
cache, and how many header parses the call performed. -/
def getDemo (env : FsEnv) (filename : String) (cache : DemoCache) :
    Except DemoError Demo × DemoCache × Nat :=
  let realPath := env.canon filename
  match cache.lookup realPath with
  | some d => (.ok d, cache, 0)
  | none =>
    match env.stat realPath with
    | .error e => (.error (.fsError e), cache, 0)
    | .ok (birthtime, filesize) =>
      match readEventsAndTags (env.sidecar (getJSONPath realPath)) with
      | .error e => (.error (.fsError e), cache, 0)
      | .ok (events, tags) =>
        match readFileHeader (env.fileBytes realPath) with
        | .error e => (.error e, cache, 1)
        | .ok header =>
          let newDemo : Demo :=
            ⟨realPath, birthtime, filesize, header, events, tags⟩
          (.ok newDemo, (realPath, newDemo) :: cache, 1)

/-! ## Rename (`Demo.rename`) and the UI-boundary name check
(`RenameDialog.validateNewName`) -/

/-- Node `path.dirname`: the path up to (excluding) the last `/`. -/
def dirname (p : String) : String :=
  match (p.toList.reverse.dropWhile (· ≠ '/')) with
  | [] => "."
  | _ :: rest => String.mk rest.reverse

/-- Node `fs.renameSync(old, new)` over a set of existing paths: fails with
`ENOENT` when the source path does not exist. -/
def renameSync (fs : List String) (old new : String) :
    Except FsErr (List String) :=
  if old ∈ fs then .ok (new :: fs.erase old) else .error .enoent

/-- Regex of `RenameDialog.validateNewName`, the test
`/^[a-zA-Z0-9\-_ [\]().]\x7b1,50\x7d$/` — the allowed character set. -/
def allowedRenameChar (c : Char) : Bool :=
  c.isAlpha || c.isDigit ||
    c = '-' || c = '_' || c = ' ' || c = '[' || c = ']' ||
    c = '(' || c = ')' || c = '.'

/-- The validation applied by `RenameDialog.validateNewName` in
`src/RenameDialog.tsx`: 1 to 50 characters, all from the allowed set. -/
def validateNewName (s : String) : Bool :=
  1 ≤ s.length && s.length ≤ 50 && s.toList.all allowedRenameChar

/-- Source function `Demo.rename(newName)` from `src/Demos.ts`, acting on the set of
existing paths.  It renames the primary file to `dir/newName.dem`,
renames the sidecar file to `dir/newName.json` swallowing only `ENOENT`,
and updates the stored path of the entity.  No validation of `newName` is
performed here. -/
def Demo.rename (fs : List String) (d : Demo) (newName : String) :
    Except FsErr (List String × Demo) :=
  let dir := dirname d.filename
  let newNameFull := dir ++ "/" ++ newName ++ ".dem"
  match renameSync fs d.filename newNameFull with
  | .error e => .error e
  | .ok fs1 =>
    match renameSync fs1 (getJSONPath d.filename)
        (dir ++ "/" ++ newName ++ ".json") with
    | .error .enoent => .ok (fs1, { d with filename := newNameFull })
    | .error e => .error e
    | .ok fs2 => .ok (fs2, { d with filename := newNameFull })

/-! ## Directory scanner (`getDemosInDirectory`) -/

/-- Node `path.join(dirPath, file)`. -/
def pathJoin (dirPath file : String) : String := dirPath ++ "/" ++ file

/-- The `files.forEach` loop of `getDemosInDirectory`: an entry ending
in `.dem` (a case-sensitive test) is handed
to `Demo.getDemo`, whose failure is swallowed; every other entry is
skipped with a log line. -/
def scanFiles (env : FsEnv) (dirPath : String) (files : List String)
    (cache : DemoCache) : List Demo × DemoCache :=
  match files with
  | [] => ([], cache)
  | file :: rest =>
    if strEndsWith file ".dem" then
      match getDemo env (pathJoin dirPath file) cache with
      | (.ok d, cache1, _) =>
        let (demos, cache2) := scanFiles env dirPath rest cache1
        (d :: demos, cache2)
      | (.error _, cache1, _) => scanFiles env dirPath rest cache1
    else
      scanFiles env dirPath rest cache

/-- Source function `getDemosInDirectory(dirPath)` from `src/Demos.ts`: if
`fs.promises.readdir` fails, log and return the empty list; otherwise
run the scan loop over the listed entries. -/
def getDemosInDirectory (env : FsEnv) (dirPath : String)
    (listing : Except FsErr (List String)) (cache : DemoCache) :
    List Demo × DemoCache :=
  match listing with
  | .error _ => ([], cache)
  | .ok files => scanFiles env dirPath files cache

/-! ## Highlight model & filter engine
(`src/views/demoDetails/Highlights.tsx`, `TimelineFilters.tsx`) -/

/-- A `HighlightPlayerSnapshot` / `PlayerSummary` as far as the filter
engine consults it: a numeric `user_id` and a display `name`. -/
structure PlayerRef where
  user_id : Int
  name : String
deriving DecidableEq, Repr

/-- The tagged union of highlight variants, with exactly the payload
fields `doesHighlightIncludePlayer` and `recomputeHighlights` consult.
Player-reference fields that the source reads through `player?.user_id`
(optional chaining) are `Option`s. -/
inductive Highlight where
  | airshot (attacker victim : Option PlayerRef)
  | chatMessage (sender : PlayerRef) (text : String)
  | crossbowAirshot (healer target : Option PlayerRef)
  | kill (killer assister victim : Option PlayerRef)
  | killStreak (player : Option PlayerRef)
  | killStreakEnded (killer victim : Option PlayerRef)
  | playerConnected (user_id : Int)
  | playerDisconnected (user_id : Int)
  | pointCaptured (cappers : List Int)
  | roundStart
  | roundWin
  | roundStalemate
deriving DecidableEq, Repr

/-- One timeline entry: `{event, tick}`. -/
structure TimelineEntry where
  event : Highlight
  tick : Nat
deriving DecidableEq, Repr

/-- Source function `samePlayer(playerId, player)` from `Highlights.tsx`:
`playerId === player?.user_id`.  A `null` player (or a `NaN` id, modelled
as `none`) compares unequal. -/
def samePlayer (playerId : Option Int) (player : Option PlayerRef) : Bool :=
  match playerId, player with
  | some i, some p => i = p.user_id
  | _, _ => false

/-- An `Int` comparison against a parsed id, used where the source
compares `playerId === highlight.c.user_id` directly. -/
def sameId (playerId : Option Int) (id : Int) : Bool :=
  match playerId with
  | some i => i = id
  | none => false

/-- Source function `doesHighlightIncludePlayer(highlight, playerId)` from
`Highlights.tsx`.  Note the `default` case of the `switch` returns
`true`: every variant not listed (the round-state transitions) passes
regardless of the player id. -/
def doesHighlightIncludePlayer (highlight : Highlight)
    (playerId : Option Int) : Bool :=
  match highlight with
  | .airshot attacker victim =>
      samePlayer playerId victim || samePlayer playerId attacker
  | .chatMessage sender _ => samePlayer playerId (some sender)
  | .crossbowAirshot healer target =>
      samePlayer playerId healer || samePlayer playerId target
  | .kill killer assister victim =>
      samePlayer playerId killer || samePlayer playerId assister ||
        samePlayer playerId victim
  | .killStreak player => samePlayer playerId player
  | .killStreakEnded killer victim =>
      samePlayer playerId killer || samePlayer playerId victim
  | .playerConnected user_id => sameId playerId user_id
  | .playerDisconnected user_id => sameId playerId user_id
  | .pointCaptured cappers =>
      match playerId with
      | some i => cappers.contains i
      | none => false
  | _ => true

/-- The `Filters` type of `TimelineFilters.tsx`. -/
structure Filters where
  playerIds : List String
  chatSearch : String
  visibleKillfeed : Bool
  visibleCaptures : Bool
  visibleChat : Bool
  visibleConnectionMessages : Bool
  visibleKillstreaks : Bool
  visibleRounds : Bool
  visibleAirshots : Bool
deriving DecidableEq, Repr

/-- The initial `useState` value of `TimelineFilters`: empty player
selection, empty search text, every visibility toggle on. -/
def defaultFilters : Filters :=
  { playerIds := []
    chatSearch := ""
    visibleKillfeed := true
    visibleCaptures := true
    visibleChat := true
    visibleConnectionMessages := true
    visibleKillstreaks := true
    visibleRounds := true
    visibleAirshots := true }

/-- JS `Number.parseInt(p, 10)` as the filter engine uses it: a parsed
integer, or `none` for `NaN`.  Selected player ids come from
`player.user_id.toString(10)`, so they are decimal strings. -/
def digitsToNat (l : List Char) : Nat :=
  l.foldl (fun acc c => 10 * acc + (c.toNat - 48)) 0

def parseIntModel (s : String) : Option Int :=
  match s.toList with
  | [] => none
  | '-' :: rest =>
    if rest ≠ [] ∧ rest.all Char.isDigit then some (-(digitsToNat rest : Int))
    else none
  | l => if l.all Char.isDigit then some (digitsToNat l) else none

/-- Source function `recomputeHighlights(filters)` from `Highlights.tsx`, applied to the
input sequence `gameSummary.highlights`.  `regexTest pattern subject`
stands for `new RegExp(pattern, "i").test(subject)`; JS regular
expression semantics are taken as an opaque parameter, since no claim
depends on them.  Each active criterion is one `Array.prototype.filter`
pass, in source order. -/
def recomputeHighlights (regexTest : String → String → Bool)
    (filters : Filters) (input : List TimelineEntry) : List TimelineEntry :=
  let hs := input
  let hs := if filters.playerIds.length > 0 then
      hs.filter (fun h => (filters.playerIds.find? (fun p =>
        doesHighlightIncludePlayer h.event (parseIntModel p))).isSome)
    else hs
  let hs := if filters.chatSearch ≠ "" then
      hs.filter (fun h =>
        match h.event with
        | .chatMessage sender text =>
            regexTest filters.chatSearch sender.name ||
              regexTest filters.chatSearch text
        | _ => true)
    else hs
  let hs := if !filters.visibleKillfeed then
      hs.filter (fun h => match h.event with | .kill _ _ _ => false | _ => true)
    else hs
  let hs := if !filters.visibleCaptures then
      hs.filter (fun h =>
        match h.event with | .pointCaptured _ => false | _ => true)
    else hs
  let hs := if !filters.visibleChat then
      hs.filter (fun h =>
        match h.event with | .chatMessage _ _ => false | _ => true)
    else hs
  let hs := if !filters.visibleConnectionMessages then
      hs.filter (fun h =>
        match h.event with
        | .playerConnected _ => false
        | .playerDisconnected _ => false
        | _ => true)
    else hs
  let hs := if !filters.visibleKillstreaks then
      hs.filter (fun h =>
        match h.event with
        | .killStreak _ => false
        | .killStreakEnded _ _ => false
        | _ => true)
    else hs
  let hs := if !filters.visibleRounds then
      hs.filter (fun h =>
        match h.event with
        | .roundStart => false
        | .roundWin => false
        | .roundStalemate => false
        | _ => true)
    else hs
  let hs := if !filters.visibleAirshots then
      hs.filter (fun h =>
        match h.event with
        | .airshot _ _ => false
        | .crossbowAirshot _ _ => false
        | _ => true)
    else hs
  hs

/-! ## Theorems -/

/-- C1: the claim states the sidecar file is deleted exactly when both
the events list and the tags list are empty, so that empty events with
non-empty tags still writes a file.  Counterexample: with empty events
and the non-empty tag list `["casual"]`, an overwriting write deletes
the file (`writeEventsAndTagsFile` tests only `events.length === 0`). -/
theorem C1_counterexample :
    writeEventsAndTagsFile [] ["casual"]
      (some (.jsonObj (some []) (some ["old"]))) true = none ∧
    (["casual"] : List String) ≠ [] := by
  decide

/-- C1 (amended): the sidecar write deletes the file exactly when the
events list is empty, regardless of the tags; when the events list is
non-empty and overwrite is requested, the `{events, tags}` object is
written. -/
theorem C1_delete_iff_events_empty (events : List DemoEvent)
    (tags : List String) (file : Option SidecarJson) (overwrite : Bool) :
    (writeEventsAndTagsFile events tags file overwrite = none ↔ events = []) ∧
    (events ≠ [] → overwrite = true →
      writeEventsAndTagsFile events tags file overwrite =
        some (.jsonObj (some events) (some tags))) := by
  cases events <;> cases file <;> cases overwrite <;>
    simp [writeEventsAndTagsFile]

/-- Witness for C1 (amended) at a concrete non-empty events list. -/
theorem C1_delete_iff_events_empty_witness :
    writeEventsAndTagsFile [⟨1, "Bookmark", "General"⟩] ["t"] none true =
      some (.jsonObj (some [⟨1, "Bookmark", "General"⟩]) (some ["t"])) :=
  (C1_delete_iff_events_empty [⟨1, "Bookmark", "General"⟩] ["t"] none
    true).2 (by decide) rfl

/-- C2: the claim states the header parser reads exactly 792 bytes.
Counterexample: `HEADER_SIZE` is 8 + 4 + 4 + 260·4 + 4·4 = 1072 bytes,
not 792. -/
theorem C2_counterexample : HEADER_SIZE = 1072 ∧ HEADER_SIZE ≠ 792 := by
  decide

/-- C2 (amended): the header parser reads exactly `HEADER_SIZE`
= 8 + 4 + 4 + 260·4 + 4·4 = 1072 bytes from offset 0, and every file
shorter than that fails with `InvalidDemoFile` rather than producing a
partial header. -/
theorem C2_short_file_invalid (file : List Nat)
    (h : file.length < HEADER_SIZE) :
    readFileHeader file = .error .invalidDemoFile ∧
    HEADER_SIZE = 8 + 4 + 4 + 260 * 4 + 4 * 4 := by
  refine ⟨?_, by decide⟩
  have hmin : min HEADER_SIZE file.length = file.length :=
    Nat.min_eq_right (Nat.le_of_lt h)
  have hne : file.length ≠ HEADER_SIZE := Nat.ne_of_lt h
  simp [readFileHeader, hmin, hne]

/-- Witness for C2 (amended) at the empty file. -/
theorem C2_short_file_invalid_witness :
    readFileHeader [] = .error .invalidDemoFile ∧
    HEADER_SIZE = 8 + 4 + 4 + 260 * 4 + 4 * 4 :=
  C2_short_file_invalid [] (by decide)

/-- C4: the claim states that a write of a non-empty TAG set with
`overwrite = false` while a sidecar exists leaves the existing file
untouched.  Counterexample: with empty events and the non-empty tag
list `["keep"]`, the existing file is deleted, not left untouched
(the deletion branch fires before the overwrite flag is consulted). -/
theorem C4_counterexample :
    writeEventsAndTagsFile [] ["keep"]
      (some (.jsonObj (some [⟨5, "Bookmark", "x"⟩]) (some ["old"]))) false
      = none ∧
    (["keep"] : List String) ≠ [] ∧
    (none : Option SidecarJson) ≠
      some (.jsonObj (some [⟨5, "Bookmark", "x"⟩]) (some ["old"])) := by
  decide

/-- C4 (amended): for a non-empty EVENTS list, a write with
`overwrite = false` while a sidecar exists leaves the existing file
untouched, and a write with `overwrite = true` replaces the file
unconditionally; with an empty events list the file is deleted
regardless of the flag. -/
theorem C4_overwrite_flag (events : List DemoEvent) (tags : List String)
    (existing : SidecarJson) (h : events ≠ []) :
    writeEventsAndTagsFile events tags (some existing) false =
      some existing ∧
    (∀ file, writeEventsAndTagsFile events tags file true =
      some (.jsonObj (some events) (some tags))) ∧
    (∀ file overwrite, writeEventsAndTagsFile [] tags file overwrite =
      none) := by
  refine ⟨?_, ?_, ?_⟩
  · cases events with
    | nil => exact absurd rfl h
    | cons e es => simp [writeEventsAndTagsFile]
  · intro file
    cases events with
    | nil => exact absurd rfl h
    | cons e es => cases file <;> simp [writeEventsAndTagsFile]
  · intro file overwrite
    simp [writeEventsAndTagsFile]

/-- Witness for C4 (amended) at a concrete non-empty events list. -/
theorem C4_overwrite_flag_witness :
    writeEventsAndTagsFile [⟨7, "Killstreak", "3"⟩] ["t"]
      (some .malformed) false = some .malformed :=
  (C4_overwrite_flag [⟨7, "Killstreak", "3"⟩] ["t"] .malformed
    (by decide)).1

/-- C9: reading the sidecar returns empty events and tags, without
error, both when the file is absent (`ENOENT`) and when its content is
unparsable; JSON objects missing a field fall back to `[]`; every
filesystem error other than `ENOENT` propagates. -/
theorem C9_read_tolerant (e : FsErr) (he : e ≠ .enoent) :
    readEventsAndTags (.error .enoent) = .ok ([], []) ∧
    readEventsAndTags (.ok .malformed) = .ok ([], []) ∧
    (∀ ev tg, readEventsAndTags (.ok (.jsonObj ev tg)) =
      .ok (ev.getD [], tg.getD [])) ∧
    readEventsAndTags (.error e) = .error e := by
  refine ⟨rfl, rfl, fun ev tg => rfl, ?_⟩
  cases e with
  | enoent => exact absurd rfl he
  | eexist => rfl
  | other => rfl

/-- Witness for C9 at the `other` error code. -/
theorem C9_read_tolerant_witness :
    readEventsAndTags (.error .other) = .error .other :=
  (C9_read_tolerant .other (by decide)).2.2.2

/-- A failing `getDemo` call leaves the cache unchanged: the insertion
is the last step, after every fallible one. -/
theorem getDemo_error_cache (env : FsEnv) (filename : String)
    (cache : DemoCache) (e : DemoError)
    (h : (getDemo env filename cache).1 = .error e) :
    (getDemo env filename cache).2.1 = cache := by
  unfold getDemo at h ⊢
  rcases hlk : DemoCache.lookup cache (env.canon filename) with _ | d
  · rcases hst : env.stat (env.canon filename) with fe | ⟨bt, sz⟩
    · simp [hlk, hst]
    · rcases hrd : readEventsAndTags
          (env.sidecar (getJSONPath (env.canon filename))) with fe | ⟨ev, tg⟩
      · simp [hlk, hst, hrd]
      · rcases hfh : readFileHeader (env.fileBytes (env.canon filename))
            with fe | hdr
        · simp [hlk, hst, hrd, hfh]
        · simp [hlk, hst, hrd, hfh] at h
  · simp [hlk] at h

/-- C8: when the construction in `getDemo` fails, the error raised by the
filesystem layer (stat or sidecar read) or by the header parser
propagates to the caller, and the cache is unchanged. -/
theorem C8_error_propagates_cache_unchanged (env : FsEnv)
    (filename : String) (cache : DemoCache) (e : DemoError)
    (h : (getDemo env filename cache).1 = .error e) :
    (getDemo env filename cache).2.1 = cache ∧
    ((∃ fe, e = .fsError fe ∧
        (env.stat (env.canon filename) = .error fe ∨
         env.sidecar (getJSONPath (env.canon filename)) = .error fe)) ∨
     readFileHeader (env.fileBytes (env.canon filename)) = .error e) := by
  refine ⟨getDemo_error_cache env filename cache e h, ?_⟩
  unfold getDemo at h
  rcases hlk : DemoCache.lookup cache (env.canon filename) with _ | d
  · rcases hst : env.stat (env.canon filename) with fe | ⟨bt, sz⟩
    · simp [hlk, hst] at h
      exact .inl ⟨fe, h.symm, .inl rfl⟩
    · rcases hrd : env.sidecar (getJSONPath (env.canon filename))
          with fe | content
      · rcases hfe : fe with _ | _ | _
        · -- ENOENT is swallowed by the sidecar read; construction goes on
          rcases hfh : readFileHeader (env.fileBytes (env.canon filename))
              with fe2 | hdr
          · simp [hlk, hst, hrd, hfe, readEventsAndTags, hfh] at h
            exact .inr (congrArg Except.error h)
          · simp [hlk, hst, hrd, hfe, readEventsAndTags, hfh] at h
        · simp [hlk, hst, hrd, hfe, readEventsAndTags] at h
          exact .inl ⟨.eexist, h.symm, .inr rfl⟩
        · simp [hlk, hst, hrd, hfe, readEventsAndTags] at h
          exact .inl ⟨.other, h.symm, .inr rfl⟩
      · rcases content with ⟨ev, tg⟩ | _
        · rcases hfh : readFileHeader (env.fileBytes (env.canon filename))
              with fe2 | hdr
          · simp [hlk, hst, hrd, readEventsAndTags, hfh] at h
            exact .inr (congrArg Except.error h)
          · simp [hlk, hst, hrd, readEventsAndTags, hfh] at h
        · rcases hfh : readFileHeader (env.fileBytes (env.canon filename))
              with fe2 | hdr
          · simp [hlk, hst, hrd, readEventsAndTags, hfh] at h
            exact .inr (congrArg Except.error h)
          · simp [hlk, hst, hrd, readEventsAndTags, hfh] at h
  · simp [hlk] at h

/-- C7: two `getDemo` calls whose textual paths canonicalize to the same
file return the identical cached instance; the second call performs no
header parse and does not modify the cache; and the entire result of a call
depends on the path only through its canonical form, so
canonicalization runs before the cache lookup. -/
theorem C7_cache_identity (env : FsEnv) (p1 p2 : String)
    (cache cache1 : DemoCache) (d : Demo) (n : Nat)
    (hcanon : env.canon p1 = env.canon p2)
    (h1 : getDemo env p1 cache = (.ok d, cache1, n)) :
    getDemo env p2 cache1 = (.ok d, cache1, 0) ∧
    getDemo env p2 cache = getDemo env p1 cache ∧
    n ≤ 1 := by
  have hsame : getDemo env p2 cache = getDemo env p1 cache := by
    unfold getDemo
    rw [← hcanon]
  have hlk1 : DemoCache.lookup cache1 (env.canon p2) = some d ∧ n ≤ 1 := by
    rw [← hcanon]
    unfold getDemo at h1
    rcases hlk : DemoCache.lookup cache (env.canon p1) with _ | d0
    · rcases hst : env.stat (env.canon p1) with fe | ⟨bt, sz⟩
      · simp [hlk, hst] at h1
      · rcases hrd : readEventsAndTags
            (env.sidecar (getJSONPath (env.canon p1))) with fe | ⟨ev, tg⟩
        · simp [hlk, hst, hrd] at h1
        · rcases hfh : readFileHeader (env.fileBytes (env.canon p1))
              with fe | hdr
          · simp [hlk, hst, hrd, hfh] at h1
          · simp [hlk, hst, hrd, hfh] at h1
            obtain ⟨hd, hc, hn⟩ := h1
            subst hc
            constructor
            · simp [DemoCache.lookup, hd]
            · omega
    · simp [hlk] at h1
      obtain ⟨hd, hc, hn⟩ := h1
      subst hc hd
      exact ⟨hlk, by omega⟩
  refine ⟨?_, hsame, hlk1.2⟩
  unfold getDemo
  simp [hlk1.1]

section Samples

/-- A well-formed demo file: the `"HL2DEMO"` stamp, its NUL terminator,
and 1064 zero bytes — 1072 bytes in total. -/
def sampleDemoBytes : List Nat :=
  [72, 76, 50, 68, 69, 77, 79, 0] ++ List.replicate 1064 0

/-- The header `readFileHeader` extracts from `sampleDemoBytes`. -/
def sampleHeader : DemoHeader :=
  ⟨0, 0, "", "", "", "", 0, 0, 0, 0⟩

/-- The demo `getDemo` builds from `sampleDemoBytes` under `sampleEnv`. -/
def sampleDemo : Demo :=
  ⟨"/demos/a.dem", 100, 1072, sampleHeader, [], []⟩

/-- A filesystem with one valid demo file whose canonical path is
`/demos/a.dem`, reachable through any textual path (e.g. a symlink),
with no sidecar file. -/
def sampleEnv : FsEnv :=
  { canon := fun _ => "/demos/a.dem"
    stat := fun _ => .ok (100, 1072)
    fileBytes := fun _ => sampleDemoBytes
    sidecar := fun _ => .error .enoent }

/-- A filesystem whose demo file holds only two bytes. -/
def shortEnv : FsEnv :=
  { canon := fun _ => "/demos/short.dem"
    stat := fun _ => .ok (5, 10)
    fileBytes := fun _ => [72, 76]
    sidecar := fun _ => .error .enoent }

/-- A first `getDemo` call on an empty cache under `sampleEnv` parses
the header and inserts the demo under the canonical path. -/
theorem getDemo_sampleEnv_first :
    getDemo sampleEnv "/demos/a-link.dem" [] =
      (.ok sampleDemo, [("/demos/a.dem", sampleDemo)], 1) := by
  rfl

/-- Witness for C7: after a first call through one textual path, a call
through a second textual path with the same canonical form returns the
identical cached instance, leaves the cache unchanged, and performs no
header parse. -/
theorem C7_cache_identity_witness :
    getDemo sampleEnv "/demos/b-link.dem" [("/demos/a.dem", sampleDemo)] =
      (.ok sampleDemo, [("/demos/a.dem", sampleDemo)], 0) :=
  (C7_cache_identity sampleEnv "/demos/a-link.dem" "/demos/b-link.dem"
    [] [("/demos/a.dem", sampleDemo)] sampleDemo 1 rfl
    getDemo_sampleEnv_first).1

/-- Witness for C8: a `getDemo` call on a truncated demo file fails with
the `InvalidDemoFile` of the header parser and leaves the cache empty. -/
theorem C8_error_propagates_cache_unchanged_witness :
    (getDemo shortEnv "/demos/short.dem" []).2.1 = ([] : DemoCache) ∧
    ((∃ fe, DemoError.invalidDemoFile = .fsError fe ∧
        (shortEnv.stat (shortEnv.canon "/demos/short.dem") = .error fe ∨
         shortEnv.sidecar (getJSONPath (shortEnv.canon "/demos/short.dem"))
           = .error fe)) ∨
     readFileHeader (shortEnv.fileBytes (shortEnv.canon "/demos/short.dem"))
       = .error .invalidDemoFile) :=
  C8_error_propagates_cache_unchanged shortEnv "/demos/short.dem" []
    .invalidDemoFile (by rfl)

end Samples

/-- C5: the claim states the scanner matches the `.dem` extension
case-insensitively, so a name ending in `.DEM` is attempted.
Counterexample: scanning a directory whose single entry `a.DEM` is a
perfectly parseable demo under `sampleEnv` yields no demos — the entry
is skipped by the case-sensitive `endsWith(".dem")` test — although
`getDemo` on that very path succeeds. -/
theorem C5_counterexample :
    scanFiles sampleEnv "/demos" ["a.DEM"] [] = ([], []) ∧
    (getDemo sampleEnv (pathJoin "/demos" "a.DEM") []).1 = .ok sampleDemo ∧
    strEndsWith "a.DEM" ".dem" = false := by
  refine ⟨rfl, rfl, rfl⟩

/-- C5 (amended): the scanner attempts `getDemo` exactly for entries
whose name ends in `.dem` compared case-sensitively; a non-matching
entry is skipped without error, a matching entry whose `getDemo` fails
is skipped without aborting the scan (the remaining entries produce the
same result), and a matching entry whose `getDemo` succeeds contributes
its demo. -/
theorem C5_scan_skip_behavior (env : FsEnv) (dirPath f : String)
    (rest : List String) (cache : DemoCache) :
    (strEndsWith f ".dem" = false →
      scanFiles env dirPath (f :: rest) cache =
        scanFiles env dirPath rest cache) ∧
    (∀ e c1 n, strEndsWith f ".dem" = true →
      getDemo env (pathJoin dirPath f) cache = (.error e, c1, n) →
      scanFiles env dirPath (f :: rest) cache =
        scanFiles env dirPath rest cache) ∧
    (∀ d c1 n, strEndsWith f ".dem" = true →
      getDemo env (pathJoin dirPath f) cache = (.ok d, c1, n) →
      scanFiles env dirPath (f :: rest) cache =
        (d :: (scanFiles env dirPath rest c1).1,
          (scanFiles env dirPath rest c1).2)) := by
  refine ⟨?_, ?_, ?_⟩
  · intro hf
    conv_lhs => rw [scanFiles]
    simp [hf]
  · intro e c1 n hf hg
    have hc : c1 = cache := by
      have h2 := getDemo_error_cache env (pathJoin dirPath f) cache e
        (by rw [hg])
      rw [hg] at h2
      exact h2
    subst hc
    conv_lhs => rw [scanFiles]
    simp [hf, hg]
  · intro d c1 n hf hg
    conv_lhs => rw [scanFiles]
    simp [hf, hg]

/-- Witness for C5 (amended): an entry with a corrupt (truncated) demo
file is skipped and the scan of the remaining entries proceeds
unchanged. -/
theorem C5_scan_skip_behavior_witness :
    scanFiles shortEnv "/demos" ["short.dem", "notes.txt"] [] =
      scanFiles shortEnv "/demos" ["notes.txt"] [] :=
  (C5_scan_skip_behavior shortEnv "/demos" "short.dem" ["notes.txt"]
    []).2.1 .invalidDemoFile [] 1 rfl rfl

/-- C6: the claim states `rename(newBaseName)` itself validates the new
name (character set, maximum length) and fails on an invalid name
without renaming.  Counterexample: `"../evil"` fails the UI
validation (it contains `/`), yet `Demo.rename` succeeds and moves the
primary file to the traversed path — the operation performs no
validation of its own. -/
theorem C6_counterexample :
    validateNewName "../evil" = false ∧
    Demo.rename ["/demos/a.dem"] sampleDemo "../evil" =
      .ok (["/demos/../evil.dem"],
        { sampleDemo with filename := "/demos/../evil.dem" }) := by
  exact ⟨rfl, rfl⟩

/-- C6 (amended): `Demo.rename` performs no validation of the new base
name; for every name — valid or invalid under the UI-boundary check
`validateNewName` — it renames the primary file to
`dir/newName.dem`, updates the stored path, and succeeds (the
missing-file condition of the sidecar being swallowed).  The allowed-character/length
check exists only in `RenameDialog.validateNewName`. -/
theorem C6_rename_unvalidated (fs : List String) (d : Demo)
    (newName : String) (hmem : d.filename ∈ fs)
    (hne : getJSONPath d.filename ≠
      dirname d.filename ++ "/" ++ newName ++ ".dem") :
    ∃ fs2, Demo.rename fs d newName =
      .ok (fs2,
        { d with filename := dirname d.filename ++ "/" ++ newName ++ ".dem" })
      ∧ dirname d.filename ++ "/" ++ newName ++ ".dem" ∈ fs2 := by
  have h1 : renameSync fs d.filename
      (dirname d.filename ++ "/" ++ newName ++ ".dem") =
      .ok ((dirname d.filename ++ "/" ++ newName ++ ".dem") ::
        fs.erase d.filename) := by
    simp [renameSync, hmem]
  by_cases hj : getJSONPath d.filename ∈
      ((dirname d.filename ++ "/" ++ newName ++ ".dem") ::
        fs.erase d.filename)
  · refine ⟨(dirname d.filename ++ "/" ++ newName ++ ".json") ::
      (((dirname d.filename ++ "/" ++ newName ++ ".dem") ::
        fs.erase d.filename).erase (getJSONPath d.filename)), ?_, ?_⟩
    · simp only [Demo.rename]
      rw [h1]
      simp [renameSync, hj]
    · exact List.mem_cons_of_mem _
        ((List.mem_erase_of_ne (Ne.symm hne)).mpr (List.mem_cons_self _ _))
  · refine ⟨(dirname d.filename ++ "/" ++ newName ++ ".dem") ::
      fs.erase d.filename, ?_, List.mem_cons_self _ _⟩
    simp only [Demo.rename]
    rw [h1]
    simp [renameSync, hj]

/-- Witness for C6 (amended) at a name the UI validation rejects. -/
theorem C6_rename_unvalidated_witness :
    ∃ fs2, Demo.rename ["/demos/a.dem", "/demos/a.json"] sampleDemo
      "evil/../name" =
      .ok (fs2, { sampleDemo with filename := "/demos/evil/../name.dem" })
      ∧ "/demos/evil/../name.dem" ∈ fs2 :=
  C6_rename_unvalidated ["/demos/a.dem", "/demos/a.json"] sampleDemo
    "evil/../name" (by simp [sampleDemo]) (by decide)

/-- Membership survives one stage of the filter engine: a conditional
`filter` pass keeps any input element that satisfies the predicate
whenever the pass is active. -/
theorem mem_ite_filter {c : Prop} [Decidable c] (p : TimelineEntry → Bool)
    (l : List TimelineEntry) (e : TimelineEntry) (he : e ∈ l)
    (hp : c → p e = true) : e ∈ (if c then l.filter p else l) := by
  by_cases hc : c
  · rw [if_pos hc]
    exact List.mem_filter.mpr ⟨he, hp hc⟩
  · rw [if_neg hc]
    exact he

/-- One stage of the filter engine produces a sublist of its input. -/
theorem ite_filter_sublist {c : Prop} [Decidable c]
    (p : TimelineEntry → Bool) (l : List TimelineEntry) :
    (if c then l.filter p else l).Sublist l := by
  by_cases hc : c
  · rw [if_pos hc]
    exact List.filter_sublist l
  · rw [if_neg hc]

/-- C3: the claim states a highlight variant carrying no player
reference passes the player-involvement filter only when the selected
set is empty, and is excluded once a player is selected.
Counterexample: with the non-empty selection `["5"]`, a round-start
entry stays in the output — the `default` case of the `switch` in
`doesHighlightIncludePlayer` returns `true`, so player-less variants
are never excluded. -/
theorem C3_counterexample :
    recomputeHighlights (fun _ _ => false)
      { defaultFilters with playerIds := ["5"] }
      [⟨.roundStart, 40⟩] = [⟨.roundStart, 40⟩] ∧
    ({ defaultFilters with playerIds := ["5"] } : Filters).playerIds ≠ [] := by
  exact ⟨rfl, by decide⟩

/-- C3 (amended): a highlight variant carrying no player reference
(round start, round win, round stalemate) always passes the
player-involvement filter — whether or not players are selected — and,
as long as the rounds toggle is on, such an entry is always retained by
the filter engine. -/
theorem C3_playerless_pass (filters : Filters)
    (regexTest : String → String → Bool) (input : List TimelineEntry)
    (e : TimelineEntry) (pid : Option Int)
    (hev : e.event = .roundStart ∨ e.event = .roundWin ∨
      e.event = .roundStalemate)
    (he : e ∈ input) (hvr : filters.visibleRounds = true) :
    doesHighlightIncludePlayer e.event pid = true ∧
    e ∈ recomputeHighlights regexTest filters input := by
  have hinc : ∀ q : Option Int, doesHighlightIncludePlayer e.event q = true := by
    intro q
    rcases hev with h | h | h <;> rw [h] <;> rfl
  refine ⟨hinc pid, ?_⟩
  simp only [recomputeHighlights]
  refine mem_ite_filter _ _ _ (mem_ite_filter _ _ _ (mem_ite_filter _ _ _
    (mem_ite_filter _ _ _ (mem_ite_filter _ _ _ (mem_ite_filter _ _ _
    (mem_ite_filter _ _ _ (mem_ite_filter _ _ _ (mem_ite_filter _ _ _
    he ?_) ?_) ?_) ?_) ?_) ?_) ?_) ?_) ?_
  · intro hc
    cases hP : filters.playerIds with
    | nil => rw [hP] at hc; simp at hc
    | cons a t => simp [hP, List.find?_cons, hinc]
  · intro _
    rcases hev with h | h | h <;> simp [h]
  · intro _
    rcases hev with h | h | h <;> simp [h]
  · intro _
    rcases hev with h | h | h <;> simp [h]
  · intro _
    rcases hev with h | h | h <;> simp [h]
  · intro _
    rcases hev with h | h | h <;> simp [h]
  · intro _
    rcases hev with h | h | h <;> simp [h]
  · intro hc
    rw [hvr] at hc
    simp at hc
  · intro _
    rcases hev with h | h | h <;> simp [h]

/-- Witness for C3 (amended): a round-win entry is retained under a
non-empty player selection. -/
theorem C3_playerless_pass_witness :
    doesHighlightIncludePlayer Highlight.roundWin (some 5) = true ∧
    (⟨.roundWin, 99⟩ : TimelineEntry) ∈
      recomputeHighlights (fun _ _ => false)
        { defaultFilters with playerIds := ["5"] } [⟨.roundWin, 99⟩] :=
  C3_playerless_pass { defaultFilters with playerIds := ["5"] }
    (fun _ _ => false) [⟨.roundWin, 99⟩] ⟨.roundWin, 99⟩ (some 5)
    (Or.inr (Or.inl rfl)) (List.mem_cons_self _ _) rfl

/-- C10: with the default `Filters` value (all category toggles on,
empty player selection, empty search text) the output of the filter engine
equals its input, and for every `Filters` value the output is a
subsequence of the input in the original order. -/
theorem C10_default_identity_and_order (regexTest : String → String → Bool)
    (input : List TimelineEntry) :
    recomputeHighlights regexTest defaultFilters input = input ∧
    ∀ filters : Filters,
      (recomputeHighlights regexTest filters input).Sublist input := by
  constructor
  · simp [recomputeHighlights, defaultFilters]
  · intro filters
    simp only [recomputeHighlights]
    refine List.Sublist.trans (ite_filter_sublist _ _) ?_
    refine List.Sublist.trans (ite_filter_sublist _ _) ?_
    refine List.Sublist.trans (ite_filter_sublist _ _) ?_
    refine List.Sublist.trans (ite_filter_sublist _ _) ?_
    refine List.Sublist.trans (ite_filter_sublist _ _) ?_
    refine List.Sublist.trans (ite_filter_sublist _ _) ?_
    refine List.Sublist.trans (ite_filter_sublist _ _) ?_
    refine List.Sublist.trans (ite_filter_sublist _ _) ?_
    refine List.Sublist.trans (ite_filter_sublist _ _) ?_
    exact List.Sublist.refl input

end DemoMan
